import Mathlib

/-!
Verification of the kvm-ioctls device-attribute protocol and the
kvm-bindings arm64 structure-serialization layer.

The serialization layer (`serde_impls!` in
`src/kvm-bindings/src/arm64/serialize.rs`) serializes each binary
structure as its raw byte span (zerocopy `IntoBytes`) and deserializes by
checking that the supplied byte count equals the structure's fixed size
and reinterpreting the bytes (zerocopy `FromBytes`).  Bytes are modelled
as natural numbers below 256, byte buffers as `List Nat`, and multi-byte
fields in little-endian order (the arm64 target is little-endian).

The device-attribute protocol (`src/kvm-ioctls/src/ioctls/device.rs`)
performs one ioctl per operation; the kernel side of the ioctl is
modelled as an oracle (`Kernel`) giving, for each (fd, request, payload)
triple, the ioctl return value, the thread errno left behind by the
call, and the payload the kernel writes back through a mutable reference.
-/

/-! ## Little-endian byte encoding primitives -/

/-- Encode the `k` low-order bytes of `n` in little-endian order. -/
def natToLe : Nat → Nat → List Nat
  | 0, _ => []
  | k + 1, n => n % 256 :: natToLe k (n / 256)

/-- Read a little-endian byte list back into a natural number. -/
def leToNat : List Nat → Nat
  | [] => 0
  | b :: bs => b + 256 * leToNat bs

theorem length_natToLe (k n : Nat) : (natToLe k n).length = k := by
  induction k generalizing n with
  | zero => rfl
  | succ k ih => simp [natToLe, ih]

theorem mem_natToLe_lt {k n b : Nat} (h : b ∈ natToLe k n) : b < 256 := by
  induction k generalizing n with
  | zero => simp [natToLe] at h
  | succ k ih =>
    simp only [natToLe, List.mem_cons] at h
    rcases h with h | h
    · omega
    · exact ih h

theorem natToLe_leToNat {bs : List Nat} {k : Nat}
    (hlen : bs.length = k) (hlt : ∀ b ∈ bs, b < 256) :
    natToLe k (leToNat bs) = bs := by
  induction bs generalizing k with
  | nil => subst hlen; rfl
  | cons b bs ih =>
    subst hlen
    have hb : b < 256 := hlt b (by simp)
    have hmod : (b + 256 * leToNat bs) % 256 = b := by omega
    have hdiv : (b + 256 * leToNat bs) / 256 = leToNat bs := by omega
    simp only [natToLe, leToNat, hmod, hdiv, List.cons.injEq, true_and]
    exact ih rfl (fun x hx => hlt x (by simp [hx]))

/-- Parse `k` consecutive little-endian fields of `w` bytes each. -/
def parseLe (w : Nat) : Nat → List Nat → List Nat
  | 0, _ => []
  | k + 1, b => leToNat (b.take w) :: parseLe w k (b.drop w)

/-- Encode a list of field values as consecutive `w`-byte little-endian
spans. -/
def encodeLeList (w : Nat) (vs : List Nat) : List Nat :=
  vs.foldr (fun v acc => natToLe w v ++ acc) []

theorem encodeLeList_nil (w : Nat) : encodeLeList w [] = [] := rfl

theorem encodeLeList_cons (w v : Nat) (vs : List Nat) :
    encodeLeList w (v :: vs) = natToLe w v ++ encodeLeList w vs := rfl

theorem length_encodeLeList (w : Nat) (vs : List Nat) :
    (encodeLeList w vs).length = w * vs.length := by
  induction vs with
  | nil => simp [encodeLeList]
  | cons v vs ih =>
    simp [encodeLeList_cons, length_natToLe, ih, Nat.mul_succ]
    omega

theorem mem_encodeLeList_lt {w : Nat} {vs : List Nat} {b : Nat}
    (h : b ∈ encodeLeList w vs) : b < 256 := by
  induction vs with
  | nil => simp [encodeLeList] at h
  | cons v vs ih =>
    rw [encodeLeList_cons, List.mem_append] at h
    rcases h with h | h
    · exact mem_natToLe_lt h
    · exact ih h

theorem take_chain (b : List Nat) (i j : Nat) :
    b.take i ++ (b.drop i).take j = b.take (i + j) :=
  (List.take_add b i j).symm

theorem natToLe_leToNat_seg (b : List Nat) (off w : Nat)
    (hlt : ∀ x ∈ b, x < 256) (h : off + w ≤ b.length) :
    natToLe w (leToNat ((b.drop off).take w)) = (b.drop off).take w := by
  apply natToLe_leToNat
  · rw [List.length_take, List.length_drop]; omega
  · intro x hx
    exact hlt x (List.mem_of_mem_drop (List.mem_of_mem_take hx))

theorem encodeLeList_parseLe (w : Nat) :
    ∀ (k : Nat) (b : List Nat), (∀ x ∈ b, x < 256) → w * k ≤ b.length →
      encodeLeList w (parseLe w k b) = b.take (w * k) := by
  intro k
  induction k with
  | zero => intro b _ _; simp [parseLe, encodeLeList]
  | succ k ih =>
    intro b hlt hlen
    rw [Nat.mul_succ] at hlen
    have hw : w ≤ b.length := by omega
    have htake : natToLe w (leToNat (b.take w)) = b.take w := by
      apply natToLe_leToNat
      · rw [List.length_take]; omega
      · intro x hx; exact hlt x (List.mem_of_mem_take hx)
    have hdroplen : w * k ≤ (b.drop w).length := by
      rw [List.length_drop]; omega
    have hdroplt : ∀ x ∈ b.drop w, x < 256 :=
      fun x hx => hlt x (List.mem_of_mem_drop hx)
    calc encodeLeList w (parseLe w (k + 1) b)
        = natToLe w (leToNat (b.take w)) ++ encodeLeList w (parseLe w k (b.drop w)) := by
          rw [parseLe, encodeLeList_cons]
      _ = b.take w ++ (b.drop w).take (w * k) := by rw [htake, ih _ hdroplt hdroplen]
      _ = b.take (w + w * k) := take_chain b w (w * k)
      _ = b.take (w * (k + 1)) := by rw [Nat.mul_succ, Nat.add_comm]

/-- Error type of the serialization adapter: deserialization fails exactly
when the supplied byte count does not match the structure's fixed size. -/
inductive SerError where
  | sizeMismatch
  deriving DecidableEq, Repr

/-! ## Binary structures (arm64)

Modelled from the spec: the structure definitions are bindgen-generated
kernel bindings that live outside `src/`; their field layout is pinned by
the spec's requirement that layout be "bit-identical to the kernel's
expectation", i.e. the arm64 kernel ABI. -/

/-- Modelled from the spec: arm64 `user_pt_regs` — 31 general-purpose
64-bit registers followed by `sp`, `pc`, `pstate` (64-bit each);
272 bytes. -/
structure user_pt_regs where
  regs : List Nat
  sp : Nat
  pc : Nat
  pstate : Nat

def user_pt_regs.size : Nat := 272

/-- Well-formedness: the register array has its fixed length. -/
def user_pt_regs.wf (x : user_pt_regs) : Prop := x.regs.length = 31

instance (x : user_pt_regs) : Decidable x.wf := by
  unfold user_pt_regs.wf; infer_instance

/-- Serialization: the raw byte span of the structure (zerocopy
`IntoBytes`), fields in declaration order, little-endian. -/
def user_pt_regs.toBytes (x : user_pt_regs) : List Nat :=
  encodeLeList 8 x.regs ++ natToLe 8 x.sp ++ natToLe 8 x.pc ++ natToLe 8 x.pstate

/-- Reinterpret an exactly-sized byte span as the structure (zerocopy
`FromBytes`). -/
def user_pt_regs.ofBytes (b : List Nat) : user_pt_regs where
  regs := parseLe 8 31 b
  sp := leToNat ((b.drop 248).take 8)
  pc := leToNat ((b.drop 256).take 8)
  pstate := leToNat ((b.drop 264).take 8)

/-- Deserialization as produced by `serde_impls!`: check the byte count
against the fixed size, then reinterpret.  Total by construction: it
only ever inspects the bytes of `b` itself. -/
def user_pt_regs.decode (b : List Nat) : Except SerError user_pt_regs :=
  if b.length = user_pt_regs.size then .ok (user_pt_regs.ofBytes b)
  else .error .sizeMismatch

theorem pt_regs_length_toBytes {x : user_pt_regs} (h : x.wf) :
    x.toBytes.length = user_pt_regs.size := by
  have h31 : x.regs.length = 31 := h
  simp only [user_pt_regs.toBytes, user_pt_regs.size, List.length_append,
    length_encodeLeList, length_natToLe, h31]

theorem pt_regs_toBytes_lt {x : user_pt_regs} {b : Nat}
    (h : b ∈ x.toBytes) : b < 256 := by
  simp only [user_pt_regs.toBytes, List.mem_append] at h
  rcases h with ((h | h) | h) | h
  · exact mem_encodeLeList_lt h
  · exact mem_natToLe_lt h
  · exact mem_natToLe_lt h
  · exact mem_natToLe_lt h

theorem pt_regs_toBytes_ofBytes {b : List Nat}
    (hlen : b.length = user_pt_regs.size) (hlt : ∀ x ∈ b, x < 256) :
    (user_pt_regs.ofBytes b).toBytes = b := by
  rw [user_pt_regs.size] at hlen
  have h1 : encodeLeList 8 (parseLe 8 31 b) = b.take 248 := by
    have := encodeLeList_parseLe 8 31 b hlt (by omega)
    simpa using this
  have h2 := natToLe_leToNat_seg b 248 8 hlt (by omega)
  have h3 := natToLe_leToNat_seg b 256 8 hlt (by omega)
  have h4 := natToLe_leToNat_seg b 264 8 hlt (by omega)
  calc (user_pt_regs.ofBytes b).toBytes
      = b.take 248 ++ ((b.drop 248).take 8 ++ ((b.drop 256).take 8 ++ (b.drop 264).take 8)) := by
        simp only [user_pt_regs.toBytes, user_pt_regs.ofBytes, h1, h2, h3, h4,
          List.append_assoc]
    _ = b := by
        rw [← List.append_assoc, take_chain, (by norm_num : (248 + 8 : Nat) = 256),
          ← List.append_assoc, take_chain, (by norm_num : (256 + 8 : Nat) = 264),
          take_chain, (by norm_num : (264 + 8 : Nat) = 272),
          ← hlen, List.take_length]

/-- Modelled from the spec: arm64 `user_fpsimd_state` — 32 vector
registers of 128 bits, then `fpsr`, `fpcr` (32-bit) and two reserved
32-bit words; 528 bytes. -/
structure user_fpsimd_state where
  vregs : List Nat
  fpsr : Nat
  fpcr : Nat
  reserved : List Nat

def user_fpsimd_state.size : Nat := 528

/-- Well-formedness: fixed array lengths. -/
def user_fpsimd_state.wf (x : user_fpsimd_state) : Prop :=
  x.vregs.length = 32 ∧ x.reserved.length = 2

instance (x : user_fpsimd_state) : Decidable x.wf := by
  unfold user_fpsimd_state.wf; infer_instance

/-- Serialization: raw byte span, fields in declaration order. -/
def user_fpsimd_state.toBytes (x : user_fpsimd_state) : List Nat :=
  encodeLeList 16 x.vregs ++ natToLe 4 x.fpsr ++ natToLe 4 x.fpcr ++
    encodeLeList 4 x.reserved

/-- Reinterpret an exactly-sized byte span as `user_fpsimd_state`. -/
def user_fpsimd_state.ofBytes (b : List Nat) : user_fpsimd_state where
  vregs := parseLe 16 32 b
  fpsr := leToNat ((b.drop 512).take 4)
  fpcr := leToNat ((b.drop 516).take 4)
  reserved := parseLe 4 2 (b.drop 520)

/-- Size-checked deserialization as produced by `serde_impls!`. -/
def user_fpsimd_state.decode (b : List Nat) : Except SerError user_fpsimd_state :=
  if b.length = user_fpsimd_state.size then .ok (user_fpsimd_state.ofBytes b)
  else .error .sizeMismatch

/-- Modelled from the spec: arm64 `kvm_regs` — core registers (`regs`,
272 bytes), then `sp_el1`, `elr_el1` (64-bit each), `spsr[5]` (64-bit
each), then 8 bytes of alignment padding before the 16-byte-aligned
FP/SIMD state (`fp_regs`, at offset 336); 864 bytes in total.  The
padding region is part of the structure's byte span: the byte-span
decode copies it bit-for-bit and the byte-span encode emits it back, so
it is carried here as an explicit 8-byte region. -/
structure kvm_regs where
  regs : user_pt_regs
  sp_el1 : Nat
  elr_el1 : Nat
  spsr : List Nat
  pad : List Nat
  fp_regs : user_fpsimd_state

def kvm_regs.size : Nat := 864

/-- Well-formedness: substructures well-formed, fixed `spsr` length, and
the padding region at its full 8-byte extent with bytes in range. -/
def kvm_regs.wf (x : kvm_regs) : Prop :=
  x.regs.wf ∧ x.spsr.length = 5 ∧ x.pad.length = 8 ∧ (∀ v ∈ x.pad, v < 256) ∧
    x.fp_regs.wf

instance (x : kvm_regs) : Decidable x.wf := by
  unfold kvm_regs.wf; infer_instance

/-- Serialization: raw byte span — the substructures' spans, the EL1
registers, `spsr`, and the padding region, in layout order. -/
def kvm_regs.toBytes (x : kvm_regs) : List Nat :=
  x.regs.toBytes ++ natToLe 8 x.sp_el1 ++ natToLe 8 x.elr_el1 ++
    encodeLeList 8 x.spsr ++ x.pad ++ x.fp_regs.toBytes

/-- Reinterpret an exactly-sized byte span as `kvm_regs`; the padding
bytes at offsets 328..336 are copied verbatim. -/
def kvm_regs.ofBytes (b : List Nat) : kvm_regs where
  regs := user_pt_regs.ofBytes (b.take 272)
  sp_el1 := leToNat ((b.drop 272).take 8)
  elr_el1 := leToNat ((b.drop 280).take 8)
  spsr := parseLe 8 5 (b.drop 288)
  pad := (b.drop 328).take 8
  fp_regs := user_fpsimd_state.ofBytes (b.drop 336)

/-- Size-checked deserialization as produced by `serde_impls!`. -/
def kvm_regs.decode (b : List Nat) : Except SerError kvm_regs :=
  if b.length = kvm_regs.size then .ok (kvm_regs.ofBytes b)
  else .error .sizeMismatch

/-- Modelled from the spec: arm64 `kvm_vcpu_init` — a 32-bit target and
seven 32-bit feature words; 32 bytes. -/
structure kvm_vcpu_init where
  target : Nat
  features : List Nat

def kvm_vcpu_init.size : Nat := 32

/-- Well-formedness: fixed feature-array length. -/
def kvm_vcpu_init.wf (x : kvm_vcpu_init) : Prop := x.features.length = 7

instance (x : kvm_vcpu_init) : Decidable x.wf := by
  unfold kvm_vcpu_init.wf; infer_instance

/-- Serialization: raw byte span, fields in declaration order. -/
def kvm_vcpu_init.toBytes (x : kvm_vcpu_init) : List Nat :=
  natToLe 4 x.target ++ encodeLeList 4 x.features

/-- Reinterpret an exactly-sized byte span as `kvm_vcpu_init`. -/
def kvm_vcpu_init.ofBytes (b : List Nat) : kvm_vcpu_init where
  target := leToNat (b.take 4)
  features := parseLe 4 7 (b.drop 4)

/-- Size-checked deserialization as produced by `serde_impls!`. -/
def kvm_vcpu_init.decode (b : List Nat) : Except SerError kvm_vcpu_init :=
  if b.length = kvm_vcpu_init.size then .ok (kvm_vcpu_init.ofBytes b)
  else .error .sizeMismatch

/-- Modelled from the spec: `kvm_mp_state` — a single 32-bit word. -/
structure kvm_mp_state where
  mp_state : Nat

def kvm_mp_state.size : Nat := 4

/-- Well-formedness: no array fields, trivially well-formed. -/
def kvm_mp_state.wf (_ : kvm_mp_state) : Prop := True

instance (x : kvm_mp_state) : Decidable x.wf := by
  unfold kvm_mp_state.wf; infer_instance

/-- Serialization: raw byte span. -/
def kvm_mp_state.toBytes (x : kvm_mp_state) : List Nat :=
  natToLe 4 x.mp_state

/-- Reinterpret an exactly-sized byte span as `kvm_mp_state`. -/
def kvm_mp_state.ofBytes (b : List Nat) : kvm_mp_state where
  mp_state := leToNat (b.take 4)

/-- Size-checked deserialization as produced by `serde_impls!`. -/
def kvm_mp_state.decode (b : List Nat) : Except SerError kvm_mp_state :=
  if b.length = kvm_mp_state.size then .ok (kvm_mp_state.ofBytes b)
  else .error .sizeMismatch

/-- Modelled from the spec: `kvm_one_reg` — a 64-bit register id and a
64-bit address; 16 bytes. -/
structure kvm_one_reg where
  id : Nat
  addr : Nat

def kvm_one_reg.size : Nat := 16

/-- Well-formedness: no array fields, trivially well-formed. -/
def kvm_one_reg.wf (_ : kvm_one_reg) : Prop := True

instance (x : kvm_one_reg) : Decidable x.wf := by
  unfold kvm_one_reg.wf; infer_instance

/-- Serialization: raw byte span, fields in declaration order. -/
def kvm_one_reg.toBytes (x : kvm_one_reg) : List Nat :=
  natToLe 8 x.id ++ natToLe 8 x.addr

/-- Reinterpret an exactly-sized byte span as `kvm_one_reg`. -/
def kvm_one_reg.ofBytes (b : List Nat) : kvm_one_reg where
  id := leToNat (b.take 8)
  addr := leToNat ((b.drop 8).take 8)

/-- Size-checked deserialization as produced by `serde_impls!`. -/
def kvm_one_reg.decode (b : List Nat) : Except SerError kvm_one_reg :=
  if b.length = kvm_one_reg.size then .ok (kvm_one_reg.ofBytes b)
  else .error .sizeMismatch

/-- Modelled from the spec: `kvm_irq_routing` — a 32-bit entry count and
32-bit flags, followed by an incomplete (zero-sized in the struct itself)
array of entries; the fixed-size prefix is 8 bytes, which is what the
byte-span serialization of the struct covers. -/
structure kvm_irq_routing where
  nr : Nat
  flags : Nat

def kvm_irq_routing.size : Nat := 8

/-- Well-formedness: no array fields in the fixed-size prefix. -/
def kvm_irq_routing.wf (_ : kvm_irq_routing) : Prop := True

instance (x : kvm_irq_routing) : Decidable x.wf := by
  unfold kvm_irq_routing.wf; infer_instance

/-- Serialization: raw byte span of the fixed-size prefix. -/
def kvm_irq_routing.toBytes (x : kvm_irq_routing) : List Nat :=
  natToLe 4 x.nr ++ natToLe 4 x.flags

/-- Reinterpret an exactly-sized byte span as `kvm_irq_routing`. -/
def kvm_irq_routing.ofBytes (b : List Nat) : kvm_irq_routing where
  nr := leToNat (b.take 4)
  flags := leToNat ((b.drop 4).take 4)

/-- Size-checked deserialization as produced by `serde_impls!`. -/
def kvm_irq_routing.decode (b : List Nat) : Except SerError kvm_irq_routing :=
  if b.length = kvm_irq_routing.size then .ok (kvm_irq_routing.ofBytes b)
  else .error .sizeMismatch

/-- Modelled from the spec: the anonymous union inside
`kvm_irq_routing_msi` (`pad`/`devid`, both 32-bit).  A union value is its
bit pattern; the manual `IntoBytes` impl in
`src/kvm-bindings/src/arm64/serialize.rs` emits the union's full byte
extent (4 bytes). -/
structure kvm_irq_routing_msi__bindgen_ty_1 where
  bytes : List Nat

def kvm_irq_routing_msi__bindgen_ty_1.size : Nat := 4

/-- Well-formedness: full byte extent present, bytes in range. -/
def kvm_irq_routing_msi__bindgen_ty_1.wf (u : kvm_irq_routing_msi__bindgen_ty_1) : Prop :=
  u.bytes.length = 4 ∧ ∀ v ∈ u.bytes, v < 256

instance (u : kvm_irq_routing_msi__bindgen_ty_1) : Decidable u.wf := by
  unfold kvm_irq_routing_msi__bindgen_ty_1.wf; infer_instance

/-- Serialization: the union's full byte extent, emitted verbatim. -/
def kvm_irq_routing_msi__bindgen_ty_1.toBytes
    (u : kvm_irq_routing_msi__bindgen_ty_1) : List Nat := u.bytes

/-- Modelled from the spec: the anonymous union inside
`kvm_irq_routing_entry` (irqchip / msi / smaller members, padded to the
32-byte `pad` member).  The manual `IntoBytes` impl emits the union's
full 32-byte extent, including bytes that are padding under the smaller
member interpretations. -/
structure kvm_irq_routing_entry__bindgen_ty_1 where
  bytes : List Nat

def kvm_irq_routing_entry__bindgen_ty_1.size : Nat := 32

/-- Well-formedness: full byte extent present, bytes in range. -/
def kvm_irq_routing_entry__bindgen_ty_1.wf (u : kvm_irq_routing_entry__bindgen_ty_1) : Prop :=
  u.bytes.length = 32 ∧ ∀ v ∈ u.bytes, v < 256

instance (u : kvm_irq_routing_entry__bindgen_ty_1) : Decidable u.wf := by
  unfold kvm_irq_routing_entry__bindgen_ty_1.wf; infer_instance

/-- Serialization: the union's full byte extent, emitted verbatim. -/
def kvm_irq_routing_entry__bindgen_ty_1.toBytes
    (u : kvm_irq_routing_entry__bindgen_ty_1) : List Nat := u.bytes

/-- Modelled from the spec: `kvm_irq_routing_entry` — `gsi`, `type`,
`flags`, `pad` (32-bit each) followed by the 32-byte routing union;
48 bytes. -/
structure kvm_irq_routing_entry where
  gsi : Nat
  type_ : Nat
  flags : Nat
  pad : Nat
  u : kvm_irq_routing_entry__bindgen_ty_1

def kvm_irq_routing_entry.size : Nat := 48

/-- Well-formedness: the union region is its full 32-byte extent. -/
def kvm_irq_routing_entry.wf (x : kvm_irq_routing_entry) : Prop := x.u.wf

instance (x : kvm_irq_routing_entry) : Decidable x.wf := by
  unfold kvm_irq_routing_entry.wf; infer_instance

/-- Serialization: raw byte span; the union region is emitted at its full
32-byte extent. -/
def kvm_irq_routing_entry.toBytes (x : kvm_irq_routing_entry) : List Nat :=
  natToLe 4 x.gsi ++ natToLe 4 x.type_ ++ natToLe 4 x.flags ++ natToLe 4 x.pad ++
    x.u.toBytes

/-- Reinterpret an exactly-sized byte span as `kvm_irq_routing_entry`. -/
def kvm_irq_routing_entry.ofBytes (b : List Nat) : kvm_irq_routing_entry where
  gsi := leToNat (b.take 4)
  type_ := leToNat ((b.drop 4).take 4)
  flags := leToNat ((b.drop 8).take 4)
  pad := leToNat ((b.drop 12).take 4)
  u := { bytes := (b.drop 16).take 32 }

/-- Size-checked deserialization as produced by `serde_impls!`. -/
def kvm_irq_routing_entry.decode (b : List Nat) : Except SerError kvm_irq_routing_entry :=
  if b.length = kvm_irq_routing_entry.size then .ok (kvm_irq_routing_entry.ofBytes b)
  else .error .sizeMismatch

/-! ## Per-structure byte-span lemmas -/

theorem fpsimd_length_toBytes {x : user_fpsimd_state} (h : x.wf) :
    x.toBytes.length = user_fpsimd_state.size := by
  obtain ⟨h32, h2⟩ := h
  simp only [user_fpsimd_state.toBytes, user_fpsimd_state.size, List.length_append,
    length_encodeLeList, length_natToLe, h32, h2]

theorem fpsimd_toBytes_lt {x : user_fpsimd_state} {b : Nat}
    (h : b ∈ x.toBytes) : b < 256 := by
  simp only [user_fpsimd_state.toBytes, List.mem_append] at h
  rcases h with ((h | h) | h) | h
  · exact mem_encodeLeList_lt h
  · exact mem_natToLe_lt h
  · exact mem_natToLe_lt h
  · exact mem_encodeLeList_lt h

theorem fpsimd_toBytes_ofBytes {b : List Nat}
    (hlen : b.length = user_fpsimd_state.size) (hlt : ∀ x ∈ b, x < 256) :
    (user_fpsimd_state.ofBytes b).toBytes = b := by
  rw [user_fpsimd_state.size] at hlen
  have h1 : encodeLeList 16 (parseLe 16 32 b) = b.take 512 := by
    have := encodeLeList_parseLe 16 32 b hlt (by omega)
    simpa using this
  have h2 := natToLe_leToNat_seg b 512 4 hlt (by omega)
  have h3 := natToLe_leToNat_seg b 516 4 hlt (by omega)
  have h4 : encodeLeList 4 (parseLe 4 2 (b.drop 520)) = (b.drop 520).take 8 := by
    have := encodeLeList_parseLe 4 2 (b.drop 520)
      (fun x hx => hlt x (List.mem_of_mem_drop hx))
      (by rw [List.length_drop]; omega)
    simpa using this
  calc (user_fpsimd_state.ofBytes b).toBytes
      = b.take 512 ++ ((b.drop 512).take 4 ++ ((b.drop 516).take 4 ++ (b.drop 520).take 8)) := by
        simp only [user_fpsimd_state.toBytes, user_fpsimd_state.ofBytes, h1, h2, h3, h4,
          List.append_assoc]
    _ = b := by
        rw [← List.append_assoc, take_chain, (by norm_num : (512 + 4 : Nat) = 516),
          ← List.append_assoc, take_chain, (by norm_num : (516 + 4 : Nat) = 520),
          take_chain, (by norm_num : (520 + 8 : Nat) = 528),
          ← hlen, List.take_length]

theorem regs_length_toBytes {x : kvm_regs} (h : x.wf) :
    x.toBytes.length = kvm_regs.size := by
  obtain ⟨h1, h5, h8, _, h2⟩ := h
  simp only [kvm_regs.toBytes, List.length_append,
    pt_regs_length_toBytes h1, fpsimd_length_toBytes h2,
    length_encodeLeList, length_natToLe, h5, h8,
    user_pt_regs.size, user_fpsimd_state.size, kvm_regs.size]

theorem regs_toBytes_lt {x : kvm_regs} (hwf : x.wf) {b : Nat}
    (h : b ∈ x.toBytes) : b < 256 := by
  simp only [kvm_regs.toBytes, List.mem_append] at h
  rcases h with ((((h | h) | h) | h) | h) | h
  · exact pt_regs_toBytes_lt h
  · exact mem_natToLe_lt h
  · exact mem_natToLe_lt h
  · exact mem_encodeLeList_lt h
  · exact hwf.2.2.2.1 b h
  · exact fpsimd_toBytes_lt h

theorem regs_toBytes_ofBytes {b : List Nat}
    (hlen : b.length = kvm_regs.size) (hlt : ∀ x ∈ b, x < 256) :
    (kvm_regs.ofBytes b).toBytes = b := by
  rw [kvm_regs.size] at hlen
  have hA : (user_pt_regs.ofBytes (b.take 272)).toBytes = b.take 272 := by
    apply pt_regs_toBytes_ofBytes
    · rw [List.length_take, user_pt_regs.size]; omega
    · intro x hx; exact hlt x (List.mem_of_mem_take hx)
  have hsp := natToLe_leToNat_seg b 272 8 hlt (by omega)
  have helr := natToLe_leToNat_seg b 280 8 hlt (by omega)
  have hspsr : encodeLeList 8 (parseLe 8 5 (b.drop 288)) = (b.drop 288).take 40 := by
    have := encodeLeList_parseLe 8 5 (b.drop 288)
      (fun x hx => hlt x (List.mem_of_mem_drop hx))
      (by rw [List.length_drop]; omega)
    simpa using this
  have hB : (user_fpsimd_state.ofBytes (b.drop 336)).toBytes = b.drop 336 := by
    apply fpsimd_toBytes_ofBytes
    · rw [List.length_drop, user_fpsimd_state.size]; omega
    · intro x hx; exact hlt x (List.mem_of_mem_drop hx)
  calc (kvm_regs.ofBytes b).toBytes
      = b.take 272 ++ ((b.drop 272).take 8 ++ ((b.drop 280).take 8 ++
          ((b.drop 288).take 40 ++ ((b.drop 328).take 8 ++ b.drop 336)))) := by
        simp only [kvm_regs.toBytes, kvm_regs.ofBytes, hA, hsp, helr, hspsr, hB,
          List.append_assoc]
    _ = b := by
        rw [← List.append_assoc, take_chain, (by norm_num : (272 + 8 : Nat) = 280),
          ← List.append_assoc, take_chain, (by norm_num : (280 + 8 : Nat) = 288),
          ← List.append_assoc, take_chain, (by norm_num : (288 + 40 : Nat) = 328),
          ← List.append_assoc, take_chain, (by norm_num : (328 + 8 : Nat) = 336)]
        exact List.take_append_drop 336 b

theorem vcpu_init_length_toBytes {x : kvm_vcpu_init} (h : x.wf) :
    x.toBytes.length = kvm_vcpu_init.size := by
  have h7 : x.features.length = 7 := h
  simp only [kvm_vcpu_init.toBytes, kvm_vcpu_init.size, List.length_append,
    length_encodeLeList, length_natToLe, h7]

theorem vcpu_init_toBytes_lt {x : kvm_vcpu_init} {b : Nat}
    (h : b ∈ x.toBytes) : b < 256 := by
  simp only [kvm_vcpu_init.toBytes, List.mem_append] at h
  rcases h with h | h
  · exact mem_natToLe_lt h
  · exact mem_encodeLeList_lt h

theorem vcpu_init_toBytes_ofBytes {b : List Nat}
    (hlen : b.length = kvm_vcpu_init.size) (hlt : ∀ x ∈ b, x < 256) :
    (kvm_vcpu_init.ofBytes b).toBytes = b := by
  rw [kvm_vcpu_init.size] at hlen
  have h1 : natToLe 4 (leToNat (b.take 4)) = b.take 4 := by
    apply natToLe_leToNat
    · rw [List.length_take]; omega
    · intro x hx; exact hlt x (List.mem_of_mem_take hx)
  have h2 : encodeLeList 4 (parseLe 4 7 (b.drop 4)) = (b.drop 4).take 28 := by
    have := encodeLeList_parseLe 4 7 (b.drop 4)
      (fun x hx => hlt x (List.mem_of_mem_drop hx))
      (by rw [List.length_drop]; omega)
    simpa using this
  calc (kvm_vcpu_init.ofBytes b).toBytes
      = b.take 4 ++ (b.drop 4).take 28 := by
        simp only [kvm_vcpu_init.toBytes, kvm_vcpu_init.ofBytes, h1, h2]
    _ = b := by
        rw [take_chain, (by norm_num : (4 + 28 : Nat) = 32), ← hlen, List.take_length]

theorem mp_state_length_toBytes {x : kvm_mp_state} (_ : x.wf) :
    x.toBytes.length = kvm_mp_state.size := by
  simp only [kvm_mp_state.toBytes, kvm_mp_state.size, length_natToLe]

theorem mp_state_toBytes_lt {x : kvm_mp_state} {b : Nat}
    (h : b ∈ x.toBytes) : b < 256 := mem_natToLe_lt h

theorem mp_state_toBytes_ofBytes {b : List Nat}
    (hlen : b.length = kvm_mp_state.size) (hlt : ∀ x ∈ b, x < 256) :
    (kvm_mp_state.ofBytes b).toBytes = b := by
  rw [kvm_mp_state.size] at hlen
  have hb : b.take 4 = b := by rw [← hlen, List.take_length]
  simp only [kvm_mp_state.toBytes, kvm_mp_state.ofBytes, hb]
  exact natToLe_leToNat hlen hlt

theorem one_reg_length_toBytes {x : kvm_one_reg} (_ : x.wf) :
    x.toBytes.length = kvm_one_reg.size := by
  simp only [kvm_one_reg.toBytes, kvm_one_reg.size, List.length_append, length_natToLe]

theorem one_reg_toBytes_lt {x : kvm_one_reg} {b : Nat}
    (h : b ∈ x.toBytes) : b < 256 := by
  simp only [kvm_one_reg.toBytes, List.mem_append] at h
  rcases h with h | h
  · exact mem_natToLe_lt h
  · exact mem_natToLe_lt h

theorem one_reg_toBytes_ofBytes {b : List Nat}
    (hlen : b.length = kvm_one_reg.size) (hlt : ∀ x ∈ b, x < 256) :
    (kvm_one_reg.ofBytes b).toBytes = b := by
  rw [kvm_one_reg.size] at hlen
  have h1 : natToLe 8 (leToNat (b.take 8)) = b.take 8 := by
    apply natToLe_leToNat
    · rw [List.length_take]; omega
    · intro x hx; exact hlt x (List.mem_of_mem_take hx)
  have h2 := natToLe_leToNat_seg b 8 8 hlt (by omega)
  calc (kvm_one_reg.ofBytes b).toBytes
      = b.take 8 ++ (b.drop 8).take 8 := by
        simp only [kvm_one_reg.toBytes, kvm_one_reg.ofBytes, h1, h2]
    _ = b := by
        rw [take_chain, (by norm_num : (8 + 8 : Nat) = 16), ← hlen, List.take_length]

theorem irq_routing_length_toBytes {x : kvm_irq_routing} (_ : x.wf) :
    x.toBytes.length = kvm_irq_routing.size := by
  simp only [kvm_irq_routing.toBytes, kvm_irq_routing.size, List.length_append,
    length_natToLe]

theorem irq_routing_toBytes_lt {x : kvm_irq_routing} {b : Nat}
    (h : b ∈ x.toBytes) : b < 256 := by
  simp only [kvm_irq_routing.toBytes, List.mem_append] at h
  rcases h with h | h
  · exact mem_natToLe_lt h
  · exact mem_natToLe_lt h

theorem irq_routing_toBytes_ofBytes {b : List Nat}
    (hlen : b.length = kvm_irq_routing.size) (hlt : ∀ x ∈ b, x < 256) :
    (kvm_irq_routing.ofBytes b).toBytes = b := by
  rw [kvm_irq_routing.size] at hlen
  have h1 : natToLe 4 (leToNat (b.take 4)) = b.take 4 := by
    apply natToLe_leToNat
    · rw [List.length_take]; omega
    · intro x hx; exact hlt x (List.mem_of_mem_take hx)
  have h2 := natToLe_leToNat_seg b 4 4 hlt (by omega)
  calc (kvm_irq_routing.ofBytes b).toBytes
      = b.take 4 ++ (b.drop 4).take 4 := by
        simp only [kvm_irq_routing.toBytes, kvm_irq_routing.ofBytes, h1, h2]
    _ = b := by
        rw [take_chain, (by norm_num : (4 + 4 : Nat) = 8), ← hlen, List.take_length]

theorem msi_union_length_toBytes
    {u : kvm_irq_routing_msi__bindgen_ty_1} (h : u.wf) :
    u.toBytes.length = kvm_irq_routing_msi__bindgen_ty_1.size := h.1

theorem entry_union_length_toBytes
    {u : kvm_irq_routing_entry__bindgen_ty_1} (h : u.wf) :
    u.toBytes.length = kvm_irq_routing_entry__bindgen_ty_1.size := h.1

theorem irq_entry_length_toBytes {x : kvm_irq_routing_entry} (h : x.wf) :
    x.toBytes.length = kvm_irq_routing_entry.size := by
  have h32 : x.u.bytes.length = 32 := h.1
  simp only [kvm_irq_routing_entry.toBytes, kvm_irq_routing_entry.size,
    kvm_irq_routing_entry__bindgen_ty_1.toBytes, List.length_append, length_natToLe, h32]

theorem irq_entry_toBytes_lt {x : kvm_irq_routing_entry} (hwf : x.wf)
    {b : Nat} (h : b ∈ x.toBytes) : b < 256 := by
  simp only [kvm_irq_routing_entry.toBytes,
    kvm_irq_routing_entry__bindgen_ty_1.toBytes, List.mem_append] at h
  rcases h with (((h | h) | h) | h) | h
  · exact mem_natToLe_lt h
  · exact mem_natToLe_lt h
  · exact mem_natToLe_lt h
  · exact mem_natToLe_lt h
  · exact hwf.2 b h

theorem irq_entry_toBytes_ofBytes {b : List Nat}
    (hlen : b.length = kvm_irq_routing_entry.size) (hlt : ∀ x ∈ b, x < 256) :
    (kvm_irq_routing_entry.ofBytes b).toBytes = b := by
  rw [kvm_irq_routing_entry.size] at hlen
  have h1 : natToLe 4 (leToNat (b.take 4)) = b.take 4 := by
    apply natToLe_leToNat
    · rw [List.length_take]; omega
    · intro x hx; exact hlt x (List.mem_of_mem_take hx)
  have h2 := natToLe_leToNat_seg b 4 4 hlt (by omega)
  have h3 := natToLe_leToNat_seg b 8 4 hlt (by omega)
  have h4 := natToLe_leToNat_seg b 12 4 hlt (by omega)
  calc (kvm_irq_routing_entry.ofBytes b).toBytes
      = b.take 4 ++ ((b.drop 4).take 4 ++ ((b.drop 8).take 4 ++ ((b.drop 12).take 4 ++
          (b.drop 16).take 32))) := by
        simp only [kvm_irq_routing_entry.toBytes, kvm_irq_routing_entry.ofBytes,
          kvm_irq_routing_entry__bindgen_ty_1.toBytes, h1, h2, h3, h4, List.append_assoc]
    _ = b := by
        rw [← List.append_assoc, take_chain, (by norm_num : (4 + 4 : Nat) = 8),
          ← List.append_assoc, take_chain, (by norm_num : (8 + 4 : Nat) = 12),
          ← List.append_assoc, take_chain, (by norm_num : (12 + 4 : Nat) = 16),
          take_chain, (by norm_num : (16 + 32 : Nat) = 48),
          ← hlen, List.take_length]

/-! ## Device handle and attribute protocol (src/kvm-ioctls/src/ioctls/device.rs) -/

/-- Raw OS file descriptors are plain machine integers. -/
abbrev RawFd := Int

/-- Modelled from the spec: the Device Attribute Descriptor
(`kvm_device_attr`) — four fields in fixed order: `group` (32-bit),
`attr` (64-bit), `addr` (64-bit), `flags` (32-bit).  The bindgen
definition lives outside `src/`; the field list follows the spec's
wire-layout sentence. -/
structure kvm_device_attr where
  group : Nat
  attr : Nat
  addr : Nat
  flags : Nat
  deriving DecidableEq, Repr

def kvm_device_attr.size : Nat := 24

/-- Wire image of the descriptor: the four fields in declaration order,
little-endian, no reordering or repacking. -/
def kvm_device_attr.toBytes (a : kvm_device_attr) : List Nat :=
  natToLe 4 a.group ++ natToLe 8 a.attr ++ natToLe 8 a.addr ++ natToLe 4 a.flags

/-- `DeviceFd`: wrapper over the file descriptor obtained when creating an
emulated device in the kernel.  The `File` inside is modelled by the raw
descriptor it owns. -/
structure DeviceFd where
  fd : RawFd
  deriving DecidableEq, Repr

/-- Helper function for creating a new device (`new_device`). -/
def new_device (dev_fd : RawFd) : DeviceFd := { fd := dev_fd }

/-- `AsRawFd for DeviceFd`: read-only view of the wrapped descriptor. -/
def DeviceFd.as_raw_fd (d : DeviceFd) : RawFd := d.fd

/-- `FromRawFd for DeviceFd`: wraps the raw descriptor unconditionally
(`File::from_raw_fd` stores the descriptor; no validation happens). -/
def DeviceFd.from_raw_fd (fd : RawFd) : DeviceFd := { fd := fd }

/-- Oracle for the kernel side of an ioctl: for each (raw fd, request
code, payload) triple it fixes the ioctl return value, the thread errno
the call leaves behind, and the payload value the kernel writes back when
the payload is passed through a mutable reference. -/
structure Kernel where
  ret : RawFd → Nat → kvm_device_attr → Int
  errnoAfter : RawFd → Nat → kvm_device_attr → Nat
  writeBack : RawFd → Nat → kvm_device_attr → kvm_device_attr

/-- vmm_sys_util `ioctl_with_ref`: one ioctl on the wrapped fd with a
shared (read-only) payload reference; only the return value reaches the
caller, whose payload is untouched. -/
def ioctl_with_ref (k : Kernel) (f : DeviceFd) (req : Nat) (arg : kvm_device_attr) : Int :=
  k.ret f.as_raw_fd req arg

/-- vmm_sys_util `ioctl_with_mut_ref`: one ioctl with a mutable payload
reference; yields the return value and the payload the caller's variable
holds afterwards. -/
def ioctl_with_mut_ref (k : Kernel) (f : DeviceFd) (req : Nat) (arg : kvm_device_attr) :
    Int × kvm_device_attr :=
  (k.ret f.as_raw_fd req arg, k.writeBack f.as_raw_fd req arg)

/-- `errno::Error::last()`: the thread errno left by the immediately
preceding ioctl call. -/
def errno_last (k : Kernel) (f : DeviceFd) (req : Nat) (arg : kvm_device_attr) : Nat :=
  k.errnoAfter f.as_raw_fd req arg

/-- Modelled from the spec: the three distinct numeric control-operation
codes of the device-attribute ioctl family (their definitions live in
`kvm_ioctls.rs`, outside `src/`; the sequence numbers follow the kernel
ABI). -/
def KVM_HAS_DEVICE_ATTR : Nat := 0xe3

/-- Modelled from the spec: the set-attribute control-operation code. -/
def KVM_SET_DEVICE_ATTR : Nat := 0xe1

/-- Modelled from the spec: the get-attribute control-operation code. -/
def KVM_GET_DEVICE_ATTR : Nat := 0xe2

/-- `DeviceFd::has_device_attr`: one `ioctl_with_ref` with
`KVM_HAS_DEVICE_ATTR`; a nonzero return becomes a single `Err` carrying
the last errno.  The second component is the caller's descriptor after
the call: the descriptor is passed by shared reference, so it is the
input itself. -/
def has_device_attr (k : Kernel) (self : DeviceFd) (device_attr : kvm_device_attr) :
    Except Nat Unit × kvm_device_attr :=
  let ret := ioctl_with_ref k self KVM_HAS_DEVICE_ATTR device_attr
  (if ret ≠ 0 then .error (errno_last k self KVM_HAS_DEVICE_ATTR device_attr)
   else .ok (), device_attr)

/-- `DeviceFd::set_device_attr`: one `ioctl_with_ref` with
`KVM_SET_DEVICE_ATTR`; same error shape, shared reference. -/
def set_device_attr (k : Kernel) (self : DeviceFd) (device_attr : kvm_device_attr) :
    Except Nat Unit × kvm_device_attr :=
  let ret := ioctl_with_ref k self KVM_SET_DEVICE_ATTR device_attr
  (if ret ≠ 0 then .error (errno_last k self KVM_SET_DEVICE_ATTR device_attr)
   else .ok (), device_attr)

/-- `DeviceFd::get_device_attr`: one `ioctl_with_mut_ref` with
`KVM_GET_DEVICE_ATTR`; the descriptor is passed by mutable reference, so
the caller's descriptor afterwards is whatever the kernel wrote back. -/
def get_device_attr (k : Kernel) (self : DeviceFd) (device_attr : kvm_device_attr) :
    Except Nat Unit × kvm_device_attr :=
  let r := ioctl_with_mut_ref k self KVM_GET_DEVICE_ATTR device_attr
  (if r.1 ≠ 0 then .error (errno_last k self KVM_GET_DEVICE_ATTR device_attr)
   else .ok (), r.2)

/-- Specification-side definition for the refinement claim: the single
generic "invoke control operation with payload reference" primitive,
parameterized by the numeric operation code and by whether the payload
reference is mutable. -/
def dev_attr_op_spec (k : Kernel) (self : DeviceFd) (code : Nat) (mutRef : Bool)
    (device_attr : kvm_device_attr) : Except Nat Unit × kvm_device_attr :=
  let ret := k.ret self.as_raw_fd code device_attr
  let after := if mutRef then k.writeBack self.as_raw_fd code device_attr else device_attr
  (if ret ≠ 0 then .error (k.errnoAfter self.as_raw_fd code device_attr) else .ok (),
   after)

/-! ## Round-trip and size-check helper lemmas -/

theorem pt_regs_roundtrip {x : user_pt_regs} (h : x.wf) :
    Except.map user_pt_regs.toBytes (user_pt_regs.decode x.toBytes) = .ok x.toBytes := by
  rw [user_pt_regs.decode, if_pos (pt_regs_length_toBytes h)]
  show Except.ok (user_pt_regs.ofBytes x.toBytes).toBytes = Except.ok x.toBytes
  rw [pt_regs_toBytes_ofBytes (pt_regs_length_toBytes h)
    (fun _ hb => pt_regs_toBytes_lt hb)]

theorem fpsimd_roundtrip {x : user_fpsimd_state} (h : x.wf) :
    Except.map user_fpsimd_state.toBytes (user_fpsimd_state.decode x.toBytes) =
      .ok x.toBytes := by
  rw [user_fpsimd_state.decode, if_pos (fpsimd_length_toBytes h)]
  show Except.ok (user_fpsimd_state.ofBytes x.toBytes).toBytes = Except.ok x.toBytes
  rw [fpsimd_toBytes_ofBytes (fpsimd_length_toBytes h)
    (fun _ hb => fpsimd_toBytes_lt hb)]

theorem regs_roundtrip {x : kvm_regs} (h : x.wf) :
    Except.map kvm_regs.toBytes (kvm_regs.decode x.toBytes) = .ok x.toBytes := by
  rw [kvm_regs.decode, if_pos (regs_length_toBytes h)]
  show Except.ok (kvm_regs.ofBytes x.toBytes).toBytes = Except.ok x.toBytes
  rw [regs_toBytes_ofBytes (regs_length_toBytes h)
    (fun _ hb => regs_toBytes_lt h hb)]

theorem vcpu_init_roundtrip {x : kvm_vcpu_init} (h : x.wf) :
    Except.map kvm_vcpu_init.toBytes (kvm_vcpu_init.decode x.toBytes) = .ok x.toBytes := by
  rw [kvm_vcpu_init.decode, if_pos (vcpu_init_length_toBytes h)]
  show Except.ok (kvm_vcpu_init.ofBytes x.toBytes).toBytes = Except.ok x.toBytes
  rw [vcpu_init_toBytes_ofBytes (vcpu_init_length_toBytes h)
    (fun _ hb => vcpu_init_toBytes_lt hb)]

theorem mp_state_roundtrip {x : kvm_mp_state} (h : x.wf) :
    Except.map kvm_mp_state.toBytes (kvm_mp_state.decode x.toBytes) = .ok x.toBytes := by
  rw [kvm_mp_state.decode, if_pos (mp_state_length_toBytes h)]
  show Except.ok (kvm_mp_state.ofBytes x.toBytes).toBytes = Except.ok x.toBytes
  rw [mp_state_toBytes_ofBytes (mp_state_length_toBytes h)
    (fun _ hb => mp_state_toBytes_lt hb)]

theorem one_reg_roundtrip {x : kvm_one_reg} (h : x.wf) :
    Except.map kvm_one_reg.toBytes (kvm_one_reg.decode x.toBytes) = .ok x.toBytes := by
  rw [kvm_one_reg.decode, if_pos (one_reg_length_toBytes h)]
  show Except.ok (kvm_one_reg.ofBytes x.toBytes).toBytes = Except.ok x.toBytes
  rw [one_reg_toBytes_ofBytes (one_reg_length_toBytes h)
    (fun _ hb => one_reg_toBytes_lt hb)]

theorem irq_routing_roundtrip {x : kvm_irq_routing} (h : x.wf) :
    Except.map kvm_irq_routing.toBytes (kvm_irq_routing.decode x.toBytes) = .ok x.toBytes := by
  rw [kvm_irq_routing.decode, if_pos (irq_routing_length_toBytes h)]
  show Except.ok (kvm_irq_routing.ofBytes x.toBytes).toBytes = Except.ok x.toBytes
  rw [irq_routing_toBytes_ofBytes (irq_routing_length_toBytes h)
    (fun _ hb => irq_routing_toBytes_lt hb)]

theorem irq_entry_roundtrip {x : kvm_irq_routing_entry} (h : x.wf) :
    Except.map kvm_irq_routing_entry.toBytes (kvm_irq_routing_entry.decode x.toBytes) =
      .ok x.toBytes := by
  rw [kvm_irq_routing_entry.decode, if_pos (irq_entry_length_toBytes h)]
  show Except.ok (kvm_irq_routing_entry.ofBytes x.toBytes).toBytes = Except.ok x.toBytes
  rw [irq_entry_toBytes_ofBytes (irq_entry_length_toBytes h)
    (fun _ hb => irq_entry_toBytes_lt h hb)]

theorem pt_regs_decode_spec (b : List Nat) :
    (user_pt_regs.decode b = .error .sizeMismatch ↔ b.length ≠ user_pt_regs.size) ∧
    (b.length = user_pt_regs.size → user_pt_regs.decode b = .ok (user_pt_regs.ofBytes b)) := by
  unfold user_pt_regs.decode
  by_cases hb : b.length = user_pt_regs.size <;> simp [hb]

theorem fpsimd_decode_spec (b : List Nat) :
    (user_fpsimd_state.decode b = .error .sizeMismatch ↔ b.length ≠ user_fpsimd_state.size) ∧
    (b.length = user_fpsimd_state.size →
      user_fpsimd_state.decode b = .ok (user_fpsimd_state.ofBytes b)) := by
  unfold user_fpsimd_state.decode
  by_cases hb : b.length = user_fpsimd_state.size <;> simp [hb]

theorem regs_decode_spec (b : List Nat) :
    (kvm_regs.decode b = .error .sizeMismatch ↔ b.length ≠ kvm_regs.size) ∧
    (b.length = kvm_regs.size → kvm_regs.decode b = .ok (kvm_regs.ofBytes b)) := by
  unfold kvm_regs.decode
  by_cases hb : b.length = kvm_regs.size <;> simp [hb]

theorem vcpu_init_decode_spec (b : List Nat) :
    (kvm_vcpu_init.decode b = .error .sizeMismatch ↔ b.length ≠ kvm_vcpu_init.size) ∧
    (b.length = kvm_vcpu_init.size → kvm_vcpu_init.decode b = .ok (kvm_vcpu_init.ofBytes b)) := by
  unfold kvm_vcpu_init.decode
  by_cases hb : b.length = kvm_vcpu_init.size <;> simp [hb]

theorem mp_state_decode_spec (b : List Nat) :
    (kvm_mp_state.decode b = .error .sizeMismatch ↔ b.length ≠ kvm_mp_state.size) ∧
    (b.length = kvm_mp_state.size → kvm_mp_state.decode b = .ok (kvm_mp_state.ofBytes b)) := by
  unfold kvm_mp_state.decode
  by_cases hb : b.length = kvm_mp_state.size <;> simp [hb]

theorem one_reg_decode_spec (b : List Nat) :
    (kvm_one_reg.decode b = .error .sizeMismatch ↔ b.length ≠ kvm_one_reg.size) ∧
    (b.length = kvm_one_reg.size → kvm_one_reg.decode b = .ok (kvm_one_reg.ofBytes b)) := by
  unfold kvm_one_reg.decode
  by_cases hb : b.length = kvm_one_reg.size <;> simp [hb]

theorem irq_routing_decode_spec (b : List Nat) :
    (kvm_irq_routing.decode b = .error .sizeMismatch ↔ b.length ≠ kvm_irq_routing.size) ∧
    (b.length = kvm_irq_routing.size →
      kvm_irq_routing.decode b = .ok (kvm_irq_routing.ofBytes b)) := by
  unfold kvm_irq_routing.decode
  by_cases hb : b.length = kvm_irq_routing.size <;> simp [hb]

theorem irq_entry_decode_spec (b : List Nat) :
    (kvm_irq_routing_entry.decode b = .error .sizeMismatch ↔
      b.length ≠ kvm_irq_routing_entry.size) ∧
    (b.length = kvm_irq_routing_entry.size →
      kvm_irq_routing_entry.decode b = .ok (kvm_irq_routing_entry.ofBytes b)) := by
  unfold kvm_irq_routing_entry.decode
  by_cases hb : b.length = kvm_irq_routing_entry.size <;> simp [hb]

/-! ## Concrete values used by witnesses -/

def z_pt : user_pt_regs := { regs := List.replicate 31 0, sp := 0, pc := 0, pstate := 0 }

def z_fp : user_fpsimd_state :=
  { vregs := List.replicate 32 0, fpsr := 0, fpcr := 0, reserved := List.replicate 2 0 }

def z_regs : kvm_regs :=
  { regs := z_pt, sp_el1 := 0, elr_el1 := 0, spsr := List.replicate 5 0,
    pad := List.replicate 8 0, fp_regs := z_fp }

def z_vcpu : kvm_vcpu_init := { target := 0, features := List.replicate 7 0 }

def z_mp : kvm_mp_state := { mp_state := 0 }

def z_one : kvm_one_reg := { id := 0, addr := 0 }

def z_rt : kvm_irq_routing := { nr := 0, flags := 0 }

def z_entry_u : kvm_irq_routing_entry__bindgen_ty_1 := { bytes := List.replicate 32 0 }

def z_entry : kvm_irq_routing_entry :=
  { gsi := 0, type_ := 0, flags := 0, pad := 0, u := z_entry_u }

def z_msi_u : kvm_irq_routing_msi__bindgen_ty_1 := { bytes := List.replicate 4 0 }

def kOk : Kernel :=
  { ret := fun _ _ _ => 0, errnoAfter := fun _ _ _ => 0, writeBack := fun _ _ a => a }

def kFail : Kernel :=
  { ret := fun _ _ _ => -1, errnoAfter := fun _ _ _ => 19, writeBack := fun _ _ a => a }

def kUnsup : Kernel :=
  { ret := fun _ _ _ => -1, errnoAfter := fun _ _ _ => 25, writeBack := fun _ _ a => a }

def d0 : DeviceFd := { fd := 3 }

def a0 : kvm_device_attr := { group := 1, attr := 2, addr := 4096, flags := 0 }

/-! ## Claim theorems -/

/-- C1: for every serializable binary structure type (user_pt_regs,
user_fpsimd_state, kvm_regs, kvm_vcpu_init, kvm_mp_state, kvm_one_reg,
kvm_irq_routing, kvm_irq_routing_entry) and every valid value x,
re-encoding the value obtained by decoding encode(x) yields exactly the
bytes of encode(x): encode(decode(encode(x))) equals encode(x)
byte-for-byte. -/
theorem serde_roundtrip_bytes :
    (∀ x : user_pt_regs, x.wf →
      Except.map user_pt_regs.toBytes (user_pt_regs.decode x.toBytes) = .ok x.toBytes) ∧
    (∀ x : user_fpsimd_state, x.wf →
      Except.map user_fpsimd_state.toBytes (user_fpsimd_state.decode x.toBytes) =
        .ok x.toBytes) ∧
    (∀ x : kvm_regs, x.wf →
      Except.map kvm_regs.toBytes (kvm_regs.decode x.toBytes) = .ok x.toBytes) ∧
    (∀ x : kvm_vcpu_init, x.wf →
      Except.map kvm_vcpu_init.toBytes (kvm_vcpu_init.decode x.toBytes) = .ok x.toBytes) ∧
    (∀ x : kvm_mp_state, x.wf →
      Except.map kvm_mp_state.toBytes (kvm_mp_state.decode x.toBytes) = .ok x.toBytes) ∧
    (∀ x : kvm_one_reg, x.wf →
      Except.map kvm_one_reg.toBytes (kvm_one_reg.decode x.toBytes) = .ok x.toBytes) ∧
    (∀ x : kvm_irq_routing, x.wf →
      Except.map kvm_irq_routing.toBytes (kvm_irq_routing.decode x.toBytes) =
        .ok x.toBytes) ∧
    (∀ x : kvm_irq_routing_entry, x.wf →
      Except.map kvm_irq_routing_entry.toBytes (kvm_irq_routing_entry.decode x.toBytes) =
        .ok x.toBytes) :=
  ⟨fun _ h => pt_regs_roundtrip h, fun _ h => fpsimd_roundtrip h,
   fun _ h => regs_roundtrip h, fun _ h => vcpu_init_roundtrip h,
   fun _ h => mp_state_roundtrip h, fun _ h => one_reg_roundtrip h,
   fun _ h => irq_routing_roundtrip h, fun _ h => irq_entry_roundtrip h⟩

/-- Witness for C1: the byte round trip evaluated at the all-zero value
of each of the eight types. -/
theorem serde_roundtrip_bytes_witness :
    Except.map user_pt_regs.toBytes (user_pt_regs.decode z_pt.toBytes) = .ok z_pt.toBytes ∧
    Except.map user_fpsimd_state.toBytes (user_fpsimd_state.decode z_fp.toBytes) =
      .ok z_fp.toBytes ∧
    Except.map kvm_regs.toBytes (kvm_regs.decode z_regs.toBytes) = .ok z_regs.toBytes ∧
    Except.map kvm_vcpu_init.toBytes (kvm_vcpu_init.decode z_vcpu.toBytes) =
      .ok z_vcpu.toBytes ∧
    Except.map kvm_mp_state.toBytes (kvm_mp_state.decode z_mp.toBytes) = .ok z_mp.toBytes ∧
    Except.map kvm_one_reg.toBytes (kvm_one_reg.decode z_one.toBytes) = .ok z_one.toBytes ∧
    Except.map kvm_irq_routing.toBytes (kvm_irq_routing.decode z_rt.toBytes) =
      .ok z_rt.toBytes ∧
    Except.map kvm_irq_routing_entry.toBytes (kvm_irq_routing_entry.decode z_entry.toBytes) =
      .ok z_entry.toBytes :=
  ⟨serde_roundtrip_bytes.1 z_pt (by decide),
   serde_roundtrip_bytes.2.1 z_fp (by decide),
   serde_roundtrip_bytes.2.2.1 z_regs (by decide),
   serde_roundtrip_bytes.2.2.2.1 z_vcpu (by decide),
   serde_roundtrip_bytes.2.2.2.2.1 z_mp (by decide),
   serde_roundtrip_bytes.2.2.2.2.2.1 z_one (by decide),
   serde_roundtrip_bytes.2.2.2.2.2.2.1 z_rt (by decide),
   serde_roundtrip_bytes.2.2.2.2.2.2.2 z_entry (by decide)⟩

/-- C2: for every serializable binary structure type and every byte
buffer b, decoding b fails with the size-mismatch error exactly when the
length of b differs from the type's fixed size, and any bit pattern of
the correct length is accepted (no field-value validation).  The model
functions are total, so decoding can never read past or underflow the
buffer. -/
theorem decode_size_check :
    (∀ b : List Nat,
      (user_pt_regs.decode b = .error .sizeMismatch ↔ b.length ≠ user_pt_regs.size) ∧
      (b.length = user_pt_regs.size →
        user_pt_regs.decode b = .ok (user_pt_regs.ofBytes b))) ∧
    (∀ b : List Nat,
      (user_fpsimd_state.decode b = .error .sizeMismatch ↔
        b.length ≠ user_fpsimd_state.size) ∧
      (b.length = user_fpsimd_state.size →
        user_fpsimd_state.decode b = .ok (user_fpsimd_state.ofBytes b))) ∧
    (∀ b : List Nat,
      (kvm_regs.decode b = .error .sizeMismatch ↔ b.length ≠ kvm_regs.size) ∧
      (b.length = kvm_regs.size → kvm_regs.decode b = .ok (kvm_regs.ofBytes b))) ∧
    (∀ b : List Nat,
      (kvm_vcpu_init.decode b = .error .sizeMismatch ↔ b.length ≠ kvm_vcpu_init.size) ∧
      (b.length = kvm_vcpu_init.size →
        kvm_vcpu_init.decode b = .ok (kvm_vcpu_init.ofBytes b))) ∧
    (∀ b : List Nat,
      (kvm_mp_state.decode b = .error .sizeMismatch ↔ b.length ≠ kvm_mp_state.size) ∧
      (b.length = kvm_mp_state.size →
        kvm_mp_state.decode b = .ok (kvm_mp_state.ofBytes b))) ∧
    (∀ b : List Nat,
      (kvm_one_reg.decode b = .error .sizeMismatch ↔ b.length ≠ kvm_one_reg.size) ∧
      (b.length = kvm_one_reg.size → kvm_one_reg.decode b = .ok (kvm_one_reg.ofBytes b))) ∧
    (∀ b : List Nat,
      (kvm_irq_routing.decode b = .error .sizeMismatch ↔ b.length ≠ kvm_irq_routing.size) ∧
      (b.length = kvm_irq_routing.size →
        kvm_irq_routing.decode b = .ok (kvm_irq_routing.ofBytes b))) ∧
    (∀ b : List Nat,
      (kvm_irq_routing_entry.decode b = .error .sizeMismatch ↔
        b.length ≠ kvm_irq_routing_entry.size) ∧
      (b.length = kvm_irq_routing_entry.size →
        kvm_irq_routing_entry.decode b = .ok (kvm_irq_routing_entry.ofBytes b))) :=
  ⟨pt_regs_decode_spec, fpsimd_decode_spec, regs_decode_spec,
   vcpu_init_decode_spec, mp_state_decode_spec, one_reg_decode_spec,
   irq_routing_decode_spec, irq_entry_decode_spec⟩

/-- Witness for C2: a correctly sized all-zero buffer is accepted, and a
wrongly sized buffer is rejected with the size-mismatch error. -/
theorem decode_size_check_witness :
    user_pt_regs.decode (List.replicate 272 0) =
      .ok (user_pt_regs.ofBytes (List.replicate 272 0)) ∧
    kvm_mp_state.decode [1, 2] = .error .sizeMismatch :=
  ⟨(decode_size_check.1 (List.replicate 272 0)).2 (by rw [List.length_replicate, user_pt_regs.size]),
   ((decode_size_check.2.2.2.2.1 [1, 2]).1).mpr (by simp [kvm_mp_state.size])⟩

/-- C10: for every serializable binary structure type and every valid
value, the binary encoding has length exactly the fixed in-memory size
of the type; in particular the two union-typed substructures are emitted
at their full byte extent (4 and 32 bytes), and the routing-entry size
accounts for the union's full extent. -/
theorem encode_length_full_extent :
    (∀ x : user_pt_regs, x.wf → x.toBytes.length = user_pt_regs.size) ∧
    (∀ x : user_fpsimd_state, x.wf → x.toBytes.length = user_fpsimd_state.size) ∧
    (∀ x : kvm_regs, x.wf → x.toBytes.length = kvm_regs.size) ∧
    (∀ x : kvm_vcpu_init, x.wf → x.toBytes.length = kvm_vcpu_init.size) ∧
    (∀ x : kvm_mp_state, x.wf → x.toBytes.length = kvm_mp_state.size) ∧
    (∀ x : kvm_one_reg, x.wf → x.toBytes.length = kvm_one_reg.size) ∧
    (∀ x : kvm_irq_routing, x.wf → x.toBytes.length = kvm_irq_routing.size) ∧
    (∀ x : kvm_irq_routing_entry, x.wf → x.toBytes.length = kvm_irq_routing_entry.size) ∧
    (∀ u : kvm_irq_routing_msi__bindgen_ty_1, u.wf →
      u.toBytes.length = kvm_irq_routing_msi__bindgen_ty_1.size) ∧
    (∀ u : kvm_irq_routing_entry__bindgen_ty_1, u.wf →
      u.toBytes.length = kvm_irq_routing_entry__bindgen_ty_1.size) ∧
    kvm_irq_routing_msi__bindgen_ty_1.size = 4 ∧
    kvm_irq_routing_entry__bindgen_ty_1.size = 32 ∧
    kvm_irq_routing_entry.size = 16 + kvm_irq_routing_entry__bindgen_ty_1.size :=
  ⟨fun _ h => pt_regs_length_toBytes h, fun _ h => fpsimd_length_toBytes h,
   fun _ h => regs_length_toBytes h, fun _ h => vcpu_init_length_toBytes h,
   fun _ h => mp_state_length_toBytes h, fun _ h => one_reg_length_toBytes h,
   fun _ h => irq_routing_length_toBytes h,
   fun _ h => irq_entry_length_toBytes h,
   fun _ h => msi_union_length_toBytes h,
   fun _ h => entry_union_length_toBytes h,
   rfl, rfl, rfl⟩

/-- Witness for C10: encoding lengths evaluated at all-zero values,
including the two union types at their full byte extent. -/
theorem encode_length_full_extent_witness :
    z_pt.toBytes.length = user_pt_regs.size ∧
    z_fp.toBytes.length = user_fpsimd_state.size ∧
    z_regs.toBytes.length = kvm_regs.size ∧
    z_vcpu.toBytes.length = kvm_vcpu_init.size ∧
    z_mp.toBytes.length = kvm_mp_state.size ∧
    z_one.toBytes.length = kvm_one_reg.size ∧
    z_rt.toBytes.length = kvm_irq_routing.size ∧
    z_entry.toBytes.length = kvm_irq_routing_entry.size ∧
    z_msi_u.toBytes.length = kvm_irq_routing_msi__bindgen_ty_1.size ∧
    z_entry_u.toBytes.length = kvm_irq_routing_entry__bindgen_ty_1.size :=
  ⟨encode_length_full_extent.1 z_pt (by decide),
   encode_length_full_extent.2.1 z_fp (by decide),
   encode_length_full_extent.2.2.1 z_regs (by decide),
   encode_length_full_extent.2.2.2.1 z_vcpu (by decide),
   encode_length_full_extent.2.2.2.2.1 z_mp (by decide),
   encode_length_full_extent.2.2.2.2.2.1 z_one (by decide),
   encode_length_full_extent.2.2.2.2.2.2.1 z_rt (by decide),
   encode_length_full_extent.2.2.2.2.2.2.2.1 z_entry (by decide),
   encode_length_full_extent.2.2.2.2.2.2.2.2.1 z_msi_u (by decide),
   encode_length_full_extent.2.2.2.2.2.2.2.2.2.1 z_entry_u (by decide)⟩

/-- C7: the Device Attribute Descriptor consists of exactly the four
fields group (32-bit), attr (64-bit), addr (64-bit), flags (32-bit), in
that fixed order: its wire image is 24 bytes, with group at offset 0,
attr at offset 4, addr at offset 12 and flags at offset 20, each slice
being exactly that field's little-endian bytes. -/
theorem kvm_device_attr_layout (a : kvm_device_attr) :
    a.toBytes.length = kvm_device_attr.size ∧
    a.toBytes.take 4 = natToLe 4 a.group ∧
    (a.toBytes.drop 4).take 8 = natToLe 8 a.attr ∧
    (a.toBytes.drop 12).take 8 = natToLe 8 a.addr ∧
    (a.toBytes.drop 20).take 4 = natToLe 4 a.flags := by
  have hg : (natToLe 4 a.group).length = 4 := length_natToLe 4 a.group
  have ha : (natToLe 8 a.attr).length = 8 := length_natToLe 8 a.attr
  have hd : (natToLe 8 a.addr).length = 8 := length_natToLe 8 a.addr
  have hf : (natToLe 4 a.flags).length = 4 := length_natToLe 4 a.flags
  have e4 : a.toBytes.drop 4 =
      natToLe 8 a.attr ++ (natToLe 8 a.addr ++ natToLe 4 a.flags) := by
    rw [kvm_device_attr.toBytes]
    exact List.drop_left' hg
  have e12 : a.toBytes.drop 12 = natToLe 8 a.addr ++ natToLe 4 a.flags := by
    rw [(by norm_num : (12 : Nat) = 4 + 8), ← List.drop_drop, e4]
    exact List.drop_left' ha
  have e20 : a.toBytes.drop 20 = natToLe 4 a.flags := by
    rw [(by norm_num : (20 : Nat) = 12 + 8), ← List.drop_drop, e12]
    exact List.drop_left' hd
  refine ⟨?_, ?_, ?_, ?_, ?_⟩
  · simp [kvm_device_attr.toBytes, kvm_device_attr.size, length_natToLe]
  · rw [kvm_device_attr.toBytes]
    exact List.take_left' hg
  · rw [e4]
    exact List.take_left' ha
  · rw [e12]
    exact List.take_left' hd
  · rw [e20]
    exact List.take_of_length_le (le_of_eq hf)

/-- C3: each of the three attribute operations returns Ok exactly when
its single underlying ioctl returns zero, and otherwise returns exactly
one Err carrying the errno left by that same single call — no retry and
no other recovery. -/
theorem attr_ops_errno_propagation (k : Kernel) (d : DeviceFd) (a : kvm_device_attr) :
    ((has_device_attr k d a).1 = .ok () ↔ ioctl_with_ref k d KVM_HAS_DEVICE_ATTR a = 0) ∧
    (ioctl_with_ref k d KVM_HAS_DEVICE_ATTR a ≠ 0 →
      (has_device_attr k d a).1 = .error (errno_last k d KVM_HAS_DEVICE_ATTR a)) ∧
    ((set_device_attr k d a).1 = .ok () ↔ ioctl_with_ref k d KVM_SET_DEVICE_ATTR a = 0) ∧
    (ioctl_with_ref k d KVM_SET_DEVICE_ATTR a ≠ 0 →
      (set_device_attr k d a).1 = .error (errno_last k d KVM_SET_DEVICE_ATTR a)) ∧
    ((get_device_attr k d a).1 = .ok () ↔
      (ioctl_with_mut_ref k d KVM_GET_DEVICE_ATTR a).1 = 0) ∧
    ((ioctl_with_mut_ref k d KVM_GET_DEVICE_ATTR a).1 ≠ 0 →
      (get_device_attr k d a).1 = .error (errno_last k d KVM_GET_DEVICE_ATTR a)) := by
  refine ⟨?_, ?_, ?_, ?_, ?_, ?_⟩
  · by_cases h : ioctl_with_ref k d KVM_HAS_DEVICE_ATTR a = 0 <;>
      simp [has_device_attr, h]
  · intro h
    simp [has_device_attr, h]
  · by_cases h : ioctl_with_ref k d KVM_SET_DEVICE_ATTR a = 0 <;>
      simp [set_device_attr, h]
  · intro h
    simp [set_device_attr, h]
  · by_cases h : (ioctl_with_mut_ref k d KVM_GET_DEVICE_ATTR a).1 = 0 <;>
      simp [get_device_attr, h]
  · intro h
    simp [get_device_attr, h]

/-- Witness for C3: a kernel whose ioctl fails with return -1 and
errno 19 makes all three operations surface exactly that errno. -/
theorem attr_ops_errno_propagation_witness :
    (has_device_attr kFail d0 a0).1 = .error 19 ∧
    (set_device_attr kFail d0 a0).1 = .error 19 ∧
    (get_device_attr kFail d0 a0).1 = .error 19 :=
  ⟨(attr_ops_errno_propagation kFail d0 a0).2.1 (by decide),
   (attr_ops_errno_propagation kFail d0 a0).2.2.2.1 (by decide),
   (attr_ops_errno_propagation kFail d0 a0).2.2.2.2.2 (by decide)⟩

/-- C4: when the kernel rejects the tested (group, attr) pair — the
ioctl returns nonzero and leaves a nonzero errno, as POSIX requires on
failure — has_device_attr returns a failure carrying that nonzero OS
error code, and the call leaves the descriptor (its addr field included)
unchanged. -/
theorem has_device_attr_unsupported (k : Kernel) (d : DeviceFd) (a : kvm_device_attr)
    (hfail : ioctl_with_ref k d KVM_HAS_DEVICE_ATTR a ≠ 0)
    (herrno : errno_last k d KVM_HAS_DEVICE_ATTR a ≠ 0) :
    (has_device_attr k d a).1 = .error (errno_last k d KVM_HAS_DEVICE_ATTR a) ∧
    errno_last k d KVM_HAS_DEVICE_ATTR a ≠ 0 ∧
    (has_device_attr k d a).2 = a ∧
    (has_device_attr k d a).2.addr = a.addr := by
  refine ⟨?_, herrno, rfl, rfl⟩
  simp [has_device_attr, hfail]

/-- Witness for C4: a kernel rejecting the pair with errno 25. -/
theorem has_device_attr_unsupported_witness :
    (has_device_attr kUnsup d0 a0).1 = .error 25 ∧
    (25 : Nat) ≠ 0 ∧
    (has_device_attr kUnsup d0 a0).2 = a0 ∧
    (has_device_attr kUnsup d0 a0).2.addr = a0.addr :=
  has_device_attr_unsupported kUnsup d0 a0 (by decide) (by decide)

/-- C6: the three operations all equal the single generic
control-dispatch primitive specialized to their fixed operation codes
(test, set, get), differing only in the code and in whether the payload
reference is mutable; the three codes are pairwise distinct. -/
theorem attr_ops_single_dispatch (k : Kernel) (d : DeviceFd) (a : kvm_device_attr) :
    has_device_attr k d a = dev_attr_op_spec k d KVM_HAS_DEVICE_ATTR false a ∧
    set_device_attr k d a = dev_attr_op_spec k d KVM_SET_DEVICE_ATTR false a ∧
    get_device_attr k d a = dev_attr_op_spec k d KVM_GET_DEVICE_ATTR true a ∧
    KVM_HAS_DEVICE_ATTR ≠ KVM_SET_DEVICE_ATTR ∧
    KVM_HAS_DEVICE_ATTR ≠ KVM_GET_DEVICE_ATTR ∧
    KVM_SET_DEVICE_ATTR ≠ KVM_GET_DEVICE_ATTR :=
  ⟨rfl, rfl, rfl, by decide, by decide, by decide⟩

/-- C8: constructing a DeviceFd from a raw descriptor performs no
validation (the constructor is total) and as_raw_fd on the result
returns exactly the descriptor that was passed in. -/
theorem raw_fd_roundtrip (fd : RawFd) :
    (DeviceFd.from_raw_fd fd).as_raw_fd = fd ∧
    DeviceFd.from_raw_fd fd = new_device fd :=
  ⟨rfl, rfl⟩

/-- C9: has_device_attr and set_device_attr take the descriptor by
shared reference, so whatever the ioctl outcome, the caller's descriptor
— every field of it — is unchanged after the call. -/
theorem shared_ref_ops_preserve_attr (k : Kernel) (d : DeviceFd) (a : kvm_device_attr) :
    (has_device_attr k d a).2 = a ∧
    (has_device_attr k d a).2.group = a.group ∧
    (has_device_attr k d a).2.attr = a.attr ∧
    (has_device_attr k d a).2.addr = a.addr ∧
    (has_device_attr k d a).2.flags = a.flags ∧
    (set_device_attr k d a).2 = a ∧
    (set_device_attr k d a).2.group = a.group ∧
    (set_device_attr k d a).2.attr = a.attr ∧
    (set_device_attr k d a).2.addr = a.addr ∧
    (set_device_attr k d a).2.flags = a.flags :=
  ⟨rfl, rfl, rfl, rfl, rfl, rfl, rfl, rfl, rfl, rfl⟩
